import Mathlib

/-!
Verification of the crawl-orchestration core of `pydoll_substack2md`
(`src/pydoll_substack2md/pydoll_scraper.py`) against its natural-language
specification.  Python strings are modelled as Lean `String` (code-point
lists compared lexicographically, matching CPython `str` comparison);
Python `set` objects are modelled as `List` up to membership; the
filesystem contents of the markdown output directory are modelled as the
list of file names it holds.
-/

/-- Helper: drop the last `n` characters of a character list
(Python slice `[:-n]`). -/
def dropEndL (l : List Char) (n : Nat) : List Char :=
  l.take (l.length - n)

/-- Helper: split a character list on a separator character, keeping empty
fields, exactly as Python `str.split(sep)` with a one-character separator. -/
def splitOnChar (sep : Char) : List Char → List (List Char)
  | [] => [[]]
  | c :: cs =>
    match splitOnChar sep cs with
    | [] => [[]]
    | w :: ws => if c = sep then [] :: w :: ws else (c :: w) :: ws

/-- Helper: Boolean test that `k` occurs as a contiguous run inside `u`
(Python `k in u` on strings), by structural recursion on `u`. -/
def hasSubL (u k : List Char) : Bool :=
  k.isPrefixOf u ||
    match u with
    | [] => false
    | _ :: t => hasSubL t k

/-- Python substring membership `k in u` lifted to `String`. -/
def strContains (u k : String) : Bool :=
  hasSubL u.data k.data

/-- Helper: lexicographic `≤` on character lists by code point, matching
CPython string comparison. -/
def strLeL : List Char → List Char → Bool
  | [], _ => true
  | _ :: _, [] => false
  | a :: xs, b :: ys => if a = b then strLeL xs ys else decide (a < b)

/-- Python string comparison `a <= b`. -/
def pyLe (a b : String) : Bool :=
  strLeL a.data b.data

/-- Keyword exclusion list built in `BaseSubstackScraper.__init__`
(`self.keywords = ["about", "archive", "podcast"]`, line 159). -/
def keywords : List String := ["about", "archive", "podcast"]

/-- Embedding of `BaseSubstackScraper.filter_urls` (lines 280-285):
keep a URL iff no keyword occurs anywhere in the URL string. -/
def filter_urls (urls kws : List String) : List String :=
  urls.filter (fun url => kws.all (fun k => !(strContains url k)))

/-- Embedding of `BaseSubstackScraper.get_url_slug_from_url` (line 352-357):
`url.split("/")[-1]`. -/
def get_url_slug_from_url (url : String) : String :=
  ⟨(splitOnChar '/' url.data).getLastD []⟩

/-- Embedding of `BaseSubstackScraper.get_filename_from_url` (lines 343-349):
if the extension does not start with a dot one is prepended (so the empty
extension becomes a bare `"."`), then appended to the last path segment. -/
def get_filename_from_url (url : String) (filetype : String) : String :=
  let ft := if filetype.startsWith "." then filetype else "." ++ filetype
  get_url_slug_from_url url ++ ft

/-- Embedding of the per-file slug recovery of
`BaseSubstackScraper._get_existing_urls_from_files` (lines 192-218): a file
name longer than 9 characters whose 9th character is `-` and whose first 8
characters are digits is treated as date-prefixed (`YYYYMMDD-slug.md`) and
the slug is `filename[9:-3]`; otherwise the slug is `filename[:-3]`. -/
def slugOfFilename (f : String) : String :=
  let l := f.data
  if l.length > 9 ∧ l.getD 8 ' ' = '-' ∧ (l.take 8).all Char.isDigit then
    ⟨dropEndL (l.drop 9) 3⟩
  else
    ⟨dropEndL l 3⟩

/-- Embedding of `BaseSubstackScraper._get_existing_urls_from_files`
(lines 192-218) applied to the list of `*.md` file names found in the
markdown output directory: the recovered artifact inventory. -/
def existing_urls_from_files (mdFiles : List String) : List String :=
  mdFiles.map slugOfFilename

/-- Persisted per-publication scraping state, as read from and written to
`.scraping_state.json` (`load_scraping_state` lines 172-181,
`save_scraping_state` lines 183-190, and the `new_state` dict built in
`scrape_posts` lines 924-937).  `none` models an absent (or falsy) field,
matching `state.get(...)`. -/
structure ScrapeState where
  latest_post_date : Option String
  latest_post_url : Option String
  scraped_urls : List String
  scraped_slugs : List String
deriving DecidableEq, Repr

/-- Default-empty state returned when the state file is missing or corrupt
(`load_scraping_state` returns `{}`), and used by non-continuous runs
(`state = self.load_scraping_state() if continuous else {}`, line 815). -/
def ScrapeState.empty : ScrapeState :=
  { latest_post_date := none, latest_post_url := none,
    scraped_urls := [], scraped_slugs := [] }

/-- Successful fetch outcome of `scrape_single_post_with_date` as far as the
orchestration core consumes it: the result dict's `"url"` and `"date_str"`
entries (lines 754-765). -/
structure Essay where
  url : String
  dateStr : String
deriving DecidableEq, Repr

/-- Embedding of the date-string computation in
`scrape_single_post_with_date` (lines 727-741): `date_str` starts as
`"1970-01-01"`; when a date text was extracted (`extracted ≠ none`, nonempty,
and not the literal `"Date not found"`) it is replaced by the `YYYYMMDD`
rendering of the parsed date when `dateparser` succeeds (`parsed = some p`)
and by `"19700101"` when parsing fails or raises (`parsed = none`).
The extraction and `dateparser` oracles are the external collaborators. -/
def computeDateStr (extracted : Option String) (parsed : Option String) : String :=
  match extracted with
  | none => "1970-01-01"
  | some e =>
    if e = "" ∨ e = "Date not found" then "1970-01-01"
    else
      match parsed with
      | some p => p
      | none => "19700101"

/-- Embedding of `date_prefix = date_str if date_str != "1970-01-01" else
"19700101"` (line 743). -/
def dateTagOf (dateStr : String) : String :=
  if dateStr = "1970-01-01" then "19700101" else dateStr

/-- Embedding of the markdown artifact file name built in
`scrape_single_post_with_date` (lines 748-749):
`f"{date_prefix}-{base_filename}.md"` with
`base_filename = get_filename_from_url(url, filetype="")`. -/
def mdFilenameFor (url dateStr : String) : String :=
  dateTagOf dateStr ++ "-" ++ get_filename_from_url url "" ++ ".md"

/-- Embedding of the pre-fetch dedup filter body of `scrape_posts`
(lines 835-875): decides whether one candidate URL is kept as a work item.
In continuous mode a URL is dropped when it is in `scraped_urls`, or its
slug is in `scraped_slugs`, or its slug is in the artifact inventory; in
non-continuous mode it is dropped when its exact legacy file name
(`slug.md`) exists in the output directory or its slug is in the artifact
inventory. -/
def keepUrl (continuous : Bool) (scrapedUrls scrapedSlugs existing mdFiles : List String)
    (url : String) : Bool :=
  let slug := get_url_slug_from_url url
  if continuous then
    !(scrapedUrls.contains url) && !(scrapedSlugs.contains slug) &&
      !(existing.contains slug)
  else
    !(mdFiles.contains (get_filename_from_url url ".md")) &&
      !(existing.contains slug)

/-- Embedding of `process_with_semaphore` (lines 886-904) minus the rate
delay: fetch one URL (the oracle `fetch` returns the `date_str` of the
result of `scrape_single_post_with_date`, or `none` when that call returned
`None`), then apply the continuous-mode post-fetch date filter: with a
stored watermark `latest_date`, a result with `date_str <= latest_date`
becomes `None`. -/
def processOne (continuous : Bool) (latestDate : Option String)
    (fetch : String → Option String) (url : String) : Option Essay :=
  match fetch url with
  | none => none
  | some ds =>
    if continuous then
      match latestDate with
      | some ld => if pyLe ds ld then none else some ⟨url, ds⟩
      | none => some ⟨url, ds⟩
    else some ⟨url, ds⟩

/-- Embedding of Python `max(essays_data, key=lambda x: x.get("date_str",
""))` (line 925): left fold keeping the first element with the maximal
`date_str` (a later element replaces the accumulator only when strictly
greater). -/
def maxByDateStr (h : Essay) (t : List Essay) : Essay :=
  t.foldl (fun acc x => if pyLe x.dateStr acc.dateStr then acc else x) h

/-- Embedding of the pre-fetch dedup filter of `scrape_posts` (lines
827-878): the list of work items (URLs handed to fetch tasks) produced from
the candidate URLs, the loaded state, and the output-directory contents. -/
def work_items (postUrls : List String) (n : Nat) (continuous : Bool)
    (state : ScrapeState) (mdFiles : List String) : List String :=
  let st := if continuous then state else ScrapeState.empty
  let existing := existing_urls_from_files mdFiles
  let toProcess := if n = 0 then postUrls else postUrls.take n
  toProcess.filter
    (keepUrl continuous st.scraped_urls st.scraped_slugs existing mdFiles)

/-- Embedding of the fetch-and-post-filter stage of
`BaseSubstackScraper.scrape_posts` (lines 883-917): applying
`process_with_semaphore` to every work item and collecting the non-`None`
results gives the accepted results list (`essays_data`).  `postUrls` is
`self.post_urls`, `n` the post-count cap (`0` = all), `state` the state on
disk at run start (only consulted when `continuous`, line 815), `mdFiles`
the markdown file names in the output directory, and `fetch` the fetch
oracle. -/
def accepted_essays (postUrls : List String) (n : Nat) (continuous : Bool)
    (state : ScrapeState) (mdFiles : List String)
    (fetch : String → Option String) : List Essay :=
  (work_items postUrls n continuous state mdFiles).filterMap
    (processOne continuous
      (if continuous then state else ScrapeState.empty).latest_post_date fetch)

/-- Embedding of the remainder of `BaseSubstackScraper.scrape_posts`
(lines 905-941): the accepted results are collected (`essays_data`), and —
only when the run is continuous and accepted at least one result — the
persisted state is replaced by a new state whose watermark is the
`date_str`/`url` of the maximal accepted result and whose url/slug sets
are the loaded sets extended with every accepted result's url and slug.
In every other case the state persisted on disk stays as it was.  The
accepted list is modelled in task-submission order; the collection loop's
completion order only permutes it, leaving membership unchanged. -/
def scrape_posts (postUrls : List String) (n : Nat) (continuous : Bool)
    (state : ScrapeState) (mdFiles : List String)
    (fetch : String → Option String) : List Essay × ScrapeState :=
  match accepted_essays postUrls n continuous state mdFiles fetch with
  | [] => ([], state)
  | e :: es =>
    if continuous then
      (e :: es,
        { latest_post_date := some (maxByDateStr e es).dateStr,
          latest_post_url := some (maxByDateStr e es).url,
          scraped_urls :=
            (if continuous then state else ScrapeState.empty).scraped_urls
              ++ (e :: es).map Essay.url,
          scraped_slugs :=
            (if continuous then state else ScrapeState.empty).scraped_slugs
              ++ (e :: es).map (fun x => get_url_slug_from_url x.url) })
    else (e :: es, state)

/-- Embedding of `BaseSubstackScraper.save_to_file` (lines 303-312) over a
filesystem modelled as an association list of (path, content): when a file
already exists at the path the function returns without writing; otherwise
the content is written at the path. -/
def save_to_file (fs : List (String × String)) (filepath content : String) :
    List (String × String) :=
  if (fs.lookup filepath).isSome then fs else fs ++ [(filepath, content)]

/-- Embedding of `save_scraping_state` (lines 183-190) as the observable
content of the state file during the write: the file is opened with mode
`"w"` (which truncates it in place — there is no temporary file and no
rename) and the JSON text is then written.  `step = 0` is the instant
before the open (prior content `old`); `step = k + 1` is the instant after
the truncating open with `k` characters of the new serialization `new`
already written. -/
def save_scraping_state_view (old new : String) (step : Nat) : String :=
  if step = 0 then old else ⟨new.data.take (step - 1)⟩

/-- Embedding of the per-publication loop of `main` (lines 2274-2292): for
each publication URL, `scrape_single_url` is attempted; on an exception the
handler continues with the next URL when `args.continuous` is set and
re-raises otherwise, which terminates the process.  `failing` is the oracle
saying whether scraping that publication raises.  Returns the list of
publications actually attempted and whether the process was terminated by a
per-publication failure. -/
def main_loop (continuous : Bool) (failing : String → Bool) :
    List String → List String × Bool
  | [] => ([], false)
  | u :: rest =>
    if failing u then
      if continuous then
        let r := main_loop continuous failing rest
        (u :: r.1, r.2)
      else ([u], true)
    else
      let r := main_loop continuous failing rest
      (u :: r.1, r.2)

/-- Phase of one fetch-worker task created in `scrape_posts` (lines
883-917): `waiting` before `async with semaphore`, `holding` after
acquiring a semaphore permit but before touching the browser, `navigating`
while inside `scrape_single_post_with_date` → `get_url_soup`, which
navigates and probes the one shared `self.tab` handle (lines 1681-1696),
and `done` after the permit is released. -/
inductive WPhase where
  | waiting
  | holding
  | navigating
  | done
deriving DecidableEq, BEq, Repr

/-- Number of workers currently holding a semaphore permit. -/
def busyCount (s : List WPhase) : Nat :=
  s.countP (fun w => w == WPhase.holding || w == WPhase.navigating)

/-- Number of workers with a navigation/probe sequence in flight against
the single shared browser handle `self.tab`. -/
def navCount (s : List WPhase) : Nat :=
  s.countP (fun w => w == WPhase.navigating)

/-- One interleaving step of the worker tasks of `scrape_posts`: the
asyncio event loop may, at any await point, let any worker acquire a free
semaphore permit (`p` permits in total), begin its navigation sequence on
the shared handle, or finish (releasing its permit).  Nothing in the code
synchronizes access to `self.tab` beyond the permit count. -/
inductive WStep (p : Nat) : List WPhase → List WPhase → Prop where
  | acquire (s : List WPhase) (i : Nat) (h : s.get? i = some WPhase.waiting)
      (hb : busyCount s < p) : WStep p s (s.set i WPhase.holding)
  | start (s : List WPhase) (i : Nat) (h : s.get? i = some WPhase.holding) :
      WStep p s (s.set i WPhase.navigating)
  | finish (s : List WPhase) (i : Nat) (h : s.get? i = some WPhase.navigating) :
      WStep p s (s.set i WPhase.done)

/-- Reachability of a worker-pool state under the interleaving semantics. -/
def WReach (p : Nat) : List WPhase → List WPhase → Prop :=
  Relation.ReflTransGen (WStep p)

/-- Embedding of the semaphore construction used for the fetch workers:
`scrape_posts_concurrently` (lines 1941-1965) receives `max_concurrent` but
never passes it on — it delegates to the base `scrape_posts`, which creates
`asyncio.Semaphore(3)` with a hard-coded constant (line 884).  The number
of permits is therefore 3 regardless of the configured value. -/
def semaphore_permits (_maxConcurrent : Nat) : Nat := 3

/-- Modelled from the spec (refinement comparison for the URL-discovery
exclusion filter): the spec's exclusion rule speaks of the URL's *path*
("drop any URL whose path contains a member of an exclusion keyword set"),
i.e. the component after the scheme and host.  This definition follows the
spec's words, to be compared with the source's `filter_urls`, which tests
the whole URL string. -/
def specUrlPathAux : List Char → Option (List Char)
  | ':' :: '/' :: '/' :: rest => some rest
  | _ :: rest => specUrlPathAux rest
  | [] => none

/-- Modelled from the spec (refinement comparison, see `specUrlPathAux`):
the path component of a URL — everything from the first `/` after the
scheme-and-host part. -/
def specUrlPath (u : String) : String :=
  let rest := (specUrlPathAux u.data).getD u.data
  ⟨rest.dropWhile (fun c => c ≠ '/')⟩

/-- State invariant claimed by the spec: `processed_slugs` is a superset of
the slugs derivable from `processed_urls`. -/
def stateInv (s : ScrapeState) : Prop :=
  ∀ u ∈ s.scraped_urls, get_url_slug_from_url u ∈ s.scraped_slugs

/-- Concrete fixture (Scenario B of the spec): a stored state whose
watermark is `20240101`. -/
def stateB : ScrapeState :=
  { latest_post_date := some "20240101",
    latest_post_url := some "https://pub.com/p/old",
    scraped_urls := ["https://pub.com/p/old"],
    scraped_slugs := ["old"] }

/-- Concrete fixture (Scenario B of the spec): a fetch oracle under which
post `a` is fetched successfully with extracted date `20231215`. -/
def fetchB : String → Option String :=
  fun u => if u == "https://pub.com/p/a" then some "20231215" else none

/-! ## Theorems -/

/-- Helper: Boolean `List.contains` is false exactly when the element is
not a member. -/
theorem contains_eq_false_iff (l : List String) (a : String) :
    l.contains a = false ↔ a ∉ l := by
  simp [List.elem_iff]

/-- C10: for every target path at which a file already exists,
`save_to_file` returns without writing, leaving the filesystem — and in
particular the existing file's contents — unchanged. -/
theorem C10_save_to_file_skips_existing (fs : List (String × String))
    (p c : String) (h : (fs.lookup p).isSome = true) :
    save_to_file fs p c = fs := by
  simp [save_to_file, h]

/-- Witness for C10 at a concrete filesystem: a markdown artifact already
on disk is not modified by a later write to the same path. -/
theorem C10_witness :
    (((["20240101-a..md", "x"].zip ["old", "y"]).lookup "20240101-a..md").isSome = true) ∧
    save_to_file (["20240101-a..md", "x"].zip ["old", "y"]) "20240101-a..md" "new"
      = ["20240101-a..md", "x"].zip ["old", "y"] :=
  ⟨by decide, C10_save_to_file_skips_existing _ "20240101-a..md" "new" (by decide)⟩

/-- C8 counterexample: the URL `https://archive.example.com/p/hello` has
path `/p/hello`, which contains no member of the exclusion keyword set,
yet `filter_urls` drops it (the keyword `archive` occurs in the host part
of the URL string) — so the filter does not drop *exactly* the URLs whose
path contains a keyword. -/
theorem C8_counterexample :
    (keywords.all
      (fun k => !(strContains (specUrlPath "https://archive.example.com/p/hello") k))
      = true) ∧
    filter_urls ["https://archive.example.com/p/hello"] keywords = [] := by
  constructor
  · decide
  · decide

/-- C8 amended: `filter_urls` drops exactly those URLs that contain an
exclusion keyword anywhere in the URL string (not only in the path); every
other URL is kept, and the surviving URLs keep the order given by the
originating source (the output is a sublist of the input). -/
theorem C8_filter_urls_characterization (urls : List String) :
    (∀ u, u ∈ filter_urls urls keywords ↔
      u ∈ urls ∧ ∀ k ∈ keywords, strContains u k = false) ∧
    List.Sublist (filter_urls urls keywords) urls := by
  refine ⟨fun u => ?_, List.filter_sublist urls⟩
  rw [filter_urls, List.mem_filter]
  simp [List.all_eq_true]

/-- C3 counterexample: the state write is not atomic.  With prior state
file content `old-state` and new serialization `new-state`, interrupting
`save_scraping_state` right after the truncating open (step 1) leaves the
file empty — neither the previously persisted state nor the new one, so
the previously persisted state is destroyed. -/
theorem C3_counterexample :
    save_scraping_state_view "old-state" "new-state" 1 ≠ "old-state" ∧
    save_scraping_state_view "old-state" "new-state" 1 ≠ "new-state" := by
  decide

/-- C3 amended: `save_scraping_state` performs a single direct truncating
write (no temporary file, no rename): before the open the file still holds
the prior state; from the truncating open onward the file holds exactly
the already-written initial segment of the new serialization (so an
interruption loses the prior state), and only the completed write yields
the full new serialization. -/
theorem C3_direct_write_characterization (old new : String) (k : Nat) :
    save_scraping_state_view old new 0 = old ∧
    save_scraping_state_view old new (new.length + 1) = new ∧
    (∃ t : List Char,
      (save_scraping_state_view old new (k + 1)).data ++ t = new.data) := by
  refine ⟨rfl, ?_, ⟨new.data.drop k, ?_⟩⟩
  · show String.mk (new.data.take new.length) = new
    rw [String.length, List.take_length]
  · show (new.data.take k) ++ new.data.drop k = new.data
    exact List.take_append_drop k new.data

/-- C7 counterexample: in non-continuous mode a failure while scraping one
publication is re-raised and terminates the process: with publications
`["a", "b"]` where scraping `a` raises, the loop attempts only `a`, never
proceeds to `b`, and the process is terminated by the per-publication
failure. -/
theorem C7_counterexample :
    main_loop false (fun u => u == "a") ["a", "b"] = (["a"], true) ∧
    "b" ∉ (main_loop false (fun u => u == "a") ["a", "b"]).1 := by
  decide

/-- C7 amended: per-publication failure containment holds only in
continuous mode: with `--continuous` every publication is attempted and a
per-publication failure never terminates the process, while in
non-continuous mode the loop is terminated by a per-publication failure
exactly when some attempted publication fails. -/
theorem C7_failure_containment (failing : String → Bool) (urls : List String) :
    main_loop true failing urls = (urls, false) ∧
    (main_loop false failing urls).2 = urls.any failing := by
  induction urls with
  | nil => exact ⟨rfl, rfl⟩
  | cons u rest ih =>
    refine ⟨?_, ?_⟩
    · by_cases h : failing u = true
      · simp [main_loop, h, ih.1]
      · simp [main_loop, h, ih.1]
    · by_cases h : failing u = true
      · simp [main_loop, h]
      · simp [main_loop, h, ih.2]


/-- C4: the fetch workers of `scrape_posts` all navigate the one shared
`self.tab` handle and nothing synchronizes them beyond the 3-permit
semaphore, so a state with two navigation/probe sequences simultaneously
in flight against the shared handle is reachable — the claimed per-handle
serialization does not hold. -/
theorem C4_shared_handle_race :
    ∃ s : List WPhase,
      WReach 3 [WPhase.waiting, WPhase.waiting] s ∧ 2 ≤ navCount s := by
  refine ⟨[WPhase.navigating, WPhase.navigating], ?_, by decide⟩
  have s1 : WStep 3 [WPhase.waiting, WPhase.waiting]
      [WPhase.holding, WPhase.waiting] :=
    WStep.acquire _ 0 rfl (by decide)
  have s2 : WStep 3 [WPhase.holding, WPhase.waiting]
      [WPhase.holding, WPhase.holding] :=
    WStep.acquire _ 1 rfl (by decide)
  have s3 : WStep 3 [WPhase.holding, WPhase.holding]
      [WPhase.navigating, WPhase.holding] :=
    WStep.start _ 0 rfl
  have s4 : WStep 3 [WPhase.navigating, WPhase.holding]
      [WPhase.navigating, WPhase.navigating] :=
    WStep.start _ 1 rfl
  exact Relation.ReflTransGen.head s1 (Relation.ReflTransGen.head s2
    (Relation.ReflTransGen.head s3 (Relation.ReflTransGen.single s4)))

/-- C5: the worker pool is not bounded by the configured concurrency
value: `scrape_posts_concurrently` drops its `max_concurrent` argument and
the base `scrape_posts` hard-codes `asyncio.Semaphore(3)`, so with
`--max-concurrent 1` the created semaphore still has 3 permits and a state
with 3 workers simultaneously holding an active session operation is
reachable, exceeding the configured limit of 1. -/
theorem C5_concurrency_bound_ignores_config :
    semaphore_permits 1 = 3 ∧
    ∃ s : List WPhase,
      WReach (semaphore_permits 1)
        [WPhase.waiting, WPhase.waiting, WPhase.waiting] s ∧
      3 ≤ navCount s := by
  refine ⟨rfl, [WPhase.navigating, WPhase.navigating, WPhase.navigating], ?_, by decide⟩
  have s1 : WStep (semaphore_permits 1)
      [WPhase.waiting, WPhase.waiting, WPhase.waiting]
      [WPhase.holding, WPhase.waiting, WPhase.waiting] :=
    WStep.acquire _ 0 rfl (by decide)
  have s2 : WStep (semaphore_permits 1)
      [WPhase.holding, WPhase.waiting, WPhase.waiting]
      [WPhase.holding, WPhase.holding, WPhase.waiting] :=
    WStep.acquire _ 1 rfl (by decide)
  have s3 : WStep (semaphore_permits 1)
      [WPhase.holding, WPhase.holding, WPhase.waiting]
      [WPhase.holding, WPhase.holding, WPhase.holding] :=
    WStep.acquire _ 2 rfl (by decide)
  have s4 : WStep (semaphore_permits 1)
      [WPhase.holding, WPhase.holding, WPhase.holding]
      [WPhase.navigating, WPhase.holding, WPhase.holding] :=
    WStep.start _ 0 rfl
  have s5 : WStep (semaphore_permits 1)
      [WPhase.navigating, WPhase.holding, WPhase.holding]
      [WPhase.navigating, WPhase.navigating, WPhase.holding] :=
    WStep.start _ 1 rfl
  have s6 : WStep (semaphore_permits 1)
      [WPhase.navigating, WPhase.navigating, WPhase.holding]
      [WPhase.navigating, WPhase.navigating, WPhase.navigating] :=
    WStep.start _ 2 rfl
  exact Relation.ReflTransGen.head s1 (Relation.ReflTransGen.head s2
    (Relation.ReflTransGen.head s3 (Relation.ReflTransGen.head s4
      (Relation.ReflTransGen.head s5 (Relation.ReflTransGen.single s6)))))

/-- C2: in non-continuous mode, a candidate URL whose slug appears in the
artifact inventory recovered from the output directory, or whose exact
legacy file name already exists there, is never emitted as a work item. -/
theorem C2_dedup_never_emits (postUrls mdFiles : List String) (n : Nat)
    (state : ScrapeState) (url : String)
    (h : get_url_slug_from_url url ∈ existing_urls_from_files mdFiles ∨
         get_filename_from_url url ".md" ∈ mdFiles) :
    url ∉ work_items postUrls n false state mdFiles := by
  intro hmem
  unfold work_items at hmem
  rw [List.mem_filter] at hmem
  obtain ⟨-, hkeep⟩ := hmem
  simp only [keepUrl, if_neg, Bool.false_eq_true, not_false_iff, if_false,
    Bool.and_eq_true, Bool.not_eq_true'] at hkeep
  rcases h with h | h
  · exact (contains_eq_false_iff _ _).mp hkeep.2 h
  · exact (contains_eq_false_iff _ _).mp hkeep.1 h

/-- Witness for C2 (Scenario A shape): with a date-prefixed artifact for
slug `b` on disk, the URL for `b` is not emitted while `a` and `c` are. -/
theorem C2_witness :
    (get_url_slug_from_url "https://x.com/p/b"
        ∈ existing_urls_from_files ["20240101-b.md"] ∨
      get_filename_from_url "https://x.com/p/b" ".md" ∈ ["20240101-b.md"]) ∧
    "https://x.com/p/b" ∉
      work_items ["https://x.com/p/a", "https://x.com/p/b", "https://x.com/p/c"]
        0 false ScrapeState.empty ["20240101-b.md"] :=
  ⟨by decide,
    C2_dedup_never_emits _ _ 0 ScrapeState.empty "https://x.com/p/b" (by decide)⟩

/-- Helper: what a `some` result of `processOne` tells us: the essay's url
is the processed url, its `date_str` is what the fetch oracle returned,
and in continuous mode with a stored watermark its `date_str` is strictly
newer than the watermark. -/
theorem processOne_some {c : Bool} {ld : Option String}
    {f : String → Option String} {u : String} {e : Essay}
    (h : processOne c ld f u = some e) :
    e.url = u ∧ f u = some e.dateStr ∧
      ∀ d, c = true → ld = some d → pyLe e.dateStr d = false := by
  unfold processOne at h
  cases hf : f u with
  | none => rw [hf] at h; exact Option.noConfusion h
  | some ds =>
    rw [hf] at h
    cases c with
    | false =>
      have h2 : some (Essay.mk u ds) = some e := h
      injection h2 with h3
      subst h3
      exact ⟨rfl, rfl, fun d hc _ => Bool.noConfusion hc⟩
    | true =>
      cases ld with
      | none =>
        have h2 : some (Essay.mk u ds) = some e := h
        injection h2 with h3
        subst h3
        exact ⟨rfl, rfl, fun d _ hld => Option.noConfusion hld⟩
      | some ld' =>
        by_cases hle : pyLe ds ld' = true
        · have h2 : (if pyLe ds ld' = true then none
              else some (Essay.mk u ds)) = some e := h
          rw [if_pos hle] at h2
          exact Option.noConfusion h2
        · have hle' : pyLe ds ld' = false := by
            revert hle; cases pyLe ds ld' <;> simp
          have h2 : (if pyLe ds ld' = true then none
              else some (Essay.mk u ds)) = some e := h
          rw [if_neg hle] at h2
          injection h2 with h3
          subst h3
          refine ⟨rfl, rfl, fun d _ hld => ?_⟩
          injection hld with h4
          subst h4
          exact hle'

/-- Helper: Python `max` over a nonempty list returns one of its
elements. -/
theorem maxByDateStr_mem (e : Essay) (t : List Essay) :
    maxByDateStr e t ∈ e :: t := by
  induction t generalizing e with
  | nil => exact List.mem_cons_self _ _
  | cons x xs ih =>
    have step : maxByDateStr e (x :: xs)
        = maxByDateStr (if pyLe x.dateStr e.dateStr then e else x) xs := by
      unfold maxByDateStr
      rw [List.foldl_cons]
    rw [step]
    have hm := ih (if pyLe x.dateStr e.dateStr then e else x)
    by_cases hc : pyLe x.dateStr e.dateStr = true
    · rw [if_pos hc] at hm ⊢
      rcases List.mem_cons.mp hm with h | h
      · rw [h]; exact List.mem_cons_self _ _
      · exact List.mem_cons_of_mem _ (List.mem_cons_of_mem _ h)
    · rw [if_neg hc] at hm ⊢
      rcases List.mem_cons.mp hm with h | h
      · rw [h]; exact List.mem_cons_of_mem _ (List.mem_cons_self _ _)
      · exact List.mem_cons_of_mem _ (List.mem_cons_of_mem _ h)

/-- Helper: every accepted essay came from a work item, carries the fetch
oracle's date string for its own url, and — in continuous mode with a
stored watermark — is strictly newer than the watermark. -/
theorem mem_accepted_essays {postUrls mdFiles : List String} {n : Nat}
    {continuous : Bool} {state : ScrapeState} {fetch : String → Option String}
    {e : Essay}
    (h : e ∈ accepted_essays postUrls n continuous state mdFiles fetch) :
    e.url ∈ work_items postUrls n continuous state mdFiles ∧
    fetch e.url = some e.dateStr ∧
    (∀ d, continuous = true → state.latest_post_date = some d →
      pyLe e.dateStr d = false) := by
  unfold accepted_essays at h
  rcases List.mem_filterMap.mp h with ⟨u, hu, hpe⟩
  obtain ⟨h1, h2, h3⟩ := processOne_some hpe
  subst h1
  refine ⟨hu, h2, ?_⟩
  intro d hc hld
  apply h3 d hc
  rw [hc]
  exact hld

/-- C1: in continuous mode with a stored watermark, a successfully fetched
item whose `date_str` is not strictly newer than the watermark is
discarded by the post-fetch filter: no entry for its URL appears in the
accepted results (`essays_data`, hence it is neither counted nor written
to the results JSON), and its URL is not added to the persisted state's
scraped-URLs set. -/
theorem C1_post_filter_discards (postUrls mdFiles : List String) (n : Nat)
    (state : ScrapeState) (fetch : String → Option String) (url d ds : String)
    (hd : state.latest_post_date = some d)
    (hf : fetch url = some ds)
    (hle : pyLe ds d = true)
    (hu : url ∉ state.scraped_urls) :
    (∀ e ∈ (scrape_posts postUrls n true state mdFiles fetch).1, e.url ≠ url) ∧
    url ∉ (scrape_posts postUrls n true state mdFiles fetch).2.scraped_urls := by
  have key : ∀ e ∈ accepted_essays postUrls n true state mdFiles fetch,
      e.url ≠ url := by
    intro e he heq
    obtain ⟨-, h2, h3⟩ := mem_accepted_essays he
    rw [heq, hf] at h2
    injection h2 with h2'
    have h4 := h3 d rfl hd
    rw [← h2', hle] at h4
    exact Bool.noConfusion h4
  unfold scrape_posts
  cases hE : accepted_essays postUrls n true state mdFiles fetch with
  | nil =>
    exact ⟨fun e he => absurd he (List.not_mem_nil e), fun hmem => hu hmem⟩
  | cons x xs =>
    refine ⟨fun e he heq => key e (by rw [hE]; exact he) heq, fun hmem => ?_⟩
    have hmem' : url ∈ state.scraped_urls ++ (x :: xs).map Essay.url := hmem
    rcases List.mem_append.mp hmem' with h | h
    · exact hu h
    · rcases List.mem_map.mp h with ⟨e, he, heu⟩
      exact key e (by rw [hE]; exact he) heu

/-- Witness for C1 at Scenario B: watermark `20240101`, post `a` fetched
with date `20231215` — `a` is excluded from the accepted set and the new
state. -/
theorem C1_witness :
    (stateB.latest_post_date = some "20240101" ∧
     fetchB "https://pub.com/p/a" = some "20231215" ∧
     pyLe "20231215" "20240101" = true ∧
     "https://pub.com/p/a" ∉ stateB.scraped_urls) ∧
    ((∀ e ∈ (scrape_posts ["https://pub.com/p/a"] 0 true stateB [] fetchB).1,
        e.url ≠ "https://pub.com/p/a") ∧
     "https://pub.com/p/a" ∉
       (scrape_posts ["https://pub.com/p/a"] 0 true stateB [] fetchB).2.scraped_urls) :=
  ⟨⟨rfl, by decide, by decide, by decide⟩,
   C1_post_filter_discards ["https://pub.com/p/a"] [] 0 stateB fetchB
     "https://pub.com/p/a" "20240101" "20231215" rfl (by decide) (by decide)
     (by decide)⟩

/-- C9: the invariant that the scraped-slugs set contains the slug of
every scraped URL is preserved by a run: whenever a URL is added to the
scraped-URLs set its slug is added to the scraped-slugs set in the same
collection step, so the committed state satisfies the invariant whenever
the loaded state did. -/
theorem C9_slug_superset_preserved (postUrls mdFiles : List String) (n : Nat)
    (continuous : Bool) (state : ScrapeState) (fetch : String → Option String)
    (h : stateInv state) :
    stateInv (scrape_posts postUrls n continuous state mdFiles fetch).2 := by
  unfold scrape_posts
  cases hE : accepted_essays postUrls n continuous state mdFiles fetch with
  | nil => exact h
  | cons x xs =>
    cases continuous with
    | false => exact h
    | true =>
      intro u hu
      have hu' : u ∈ state.scraped_urls ++ (x :: xs).map Essay.url := hu
      show get_url_slug_from_url u ∈ state.scraped_slugs
          ++ (x :: xs).map (fun e => get_url_slug_from_url e.url)
      rcases List.mem_append.mp hu' with h1 | h1
      · exact List.mem_append.mpr (Or.inl (h u h1))
      · rcases List.mem_map.mp h1 with ⟨e, he, heu⟩
        exact List.mem_append.mpr (Or.inr (List.mem_map.mpr ⟨e, he, by rw [heu]⟩))

/-- Witness for C9 at a concrete run: the invariant holds for the loaded
state and for the committed state. -/
theorem C9_witness :
    stateInv stateB ∧
    stateInv (scrape_posts ["https://pub.com/p/a"] 0 true stateB [] fetchB).2 :=
  ⟨by unfold stateInv; decide,
   C9_slug_superset_preserved ["https://pub.com/p/a"] [] 0 true stateB fetchB
     (by unfold stateInv; decide)⟩

/-- C6 counterexample: a sentinel-dated item can be treated as the latest
item.  On a first continuous run (no stored watermark) whose only fetched
item has an undeterminable date, the computed `date_str` is the sentinel
and the new watermark is taken from that very item: `latest_post_url` is
the sentinel-dated item's URL and `latest_post_date` is its sentinel
`date_str` — which is moreover stored as `1970-01-01`, not the normalized
`19700101`. -/
theorem C6_counterexample :
    computeDateStr none none = "1970-01-01" ∧
    dateTagOf (computeDateStr none none) = "19700101" ∧
    (scrape_posts ["https://x.com/p/a"] 0 true ScrapeState.empty []
        (fun _ => some (computeDateStr none none))).2.latest_post_url
      = some "https://x.com/p/a" ∧
    (scrape_posts ["https://x.com/p/a"] 0 true ScrapeState.empty []
        (fun _ => some (computeDateStr none none))).2.latest_post_date
      = some "1970-01-01" := by
  refine ⟨rfl, by decide, ?_, ?_⟩ <;> decide

/-- C6 amended: an item whose date cannot be determined (`extracted =
none`) or parsed (`parsed = none`) gets the sentinel `19700101` as the
date tag of its artifact file names; and when a stored watermark at least
the sentinel exists, the run's resulting watermark is either the old one
or a non-sentinel date — a sentinel-dated item never becomes the
watermark in that case (without a stored watermark it can, see the
counterexample). -/
theorem C6_sentinel_behavior (postUrls mdFiles : List String) (n : Nat)
    (state : ScrapeState) (fetch : String → Option String) (d : String)
    (hd : state.latest_post_date = some d)
    (h1 : pyLe "19700101" d = true)
    (h2 : pyLe "1970-01-01" d = true) :
    (∀ parsed : Option String, dateTagOf (computeDateStr none parsed) = "19700101") ∧
    (∀ e : String, ¬(e = "" ∨ e = "Date not found") →
      dateTagOf (computeDateStr (some e) none) = "19700101") ∧
    (∀ ds, (scrape_posts postUrls n true state mdFiles fetch).2.latest_post_date
        = some ds → ds = d ∨ (ds ≠ "19700101" ∧ ds ≠ "1970-01-01")) := by
  refine ⟨?_, fun e he => ?_, fun ds hds => ?_⟩
  · intro parsed
    show dateTagOf "1970-01-01" = "19700101"
    decide
  · show dateTagOf (if e = "" ∨ e = "Date not found" then "1970-01-01"
        else match (none : Option String) with
          | some p => p
          | none => "19700101") = "19700101"
    rw [if_neg he]
    decide
  · rcases hE : accepted_essays postUrls n true state mdFiles fetch with _ | ⟨x, xs⟩
    · unfold scrape_posts at hds
      rw [hE] at hds
      have hds' : state.latest_post_date = some ds := hds
      rw [hd] at hds'
      injection hds' with h'
      exact Or.inl h'.symm
    · right
      unfold scrape_posts at hds
      rw [hE] at hds
      have hds' : some (maxByDateStr x xs).dateStr = some ds := hds
      injection hds' with h'
      have hmem := maxByDateStr_mem x xs
      rw [← hE] at hmem
      obtain ⟨-, -, h3⟩ := mem_accepted_essays hmem
      have h4 := h3 d rfl hd
      rw [h'] at h4
      constructor
      · intro hq; rw [hq, h1] at h4; exact Bool.noConfusion h4
      · intro hq; rw [hq, h2] at h4; exact Bool.noConfusion h4

/-- Witness for C6 at a concrete run with stored watermark `20240101`. -/
theorem C6_witness :
    (stateB.latest_post_date = some "20240101" ∧
     pyLe "19700101" "20240101" = true ∧
     pyLe "1970-01-01" "20240101" = true) ∧
    ((∀ parsed : Option String, dateTagOf (computeDateStr none parsed) = "19700101") ∧
     (∀ e : String, ¬(e = "" ∨ e = "Date not found") →
        dateTagOf (computeDateStr (some e) none) = "19700101") ∧
     (∀ ds, (scrape_posts ["https://pub.com/p/a"] 0 true stateB []
          fetchB).2.latest_post_date = some ds →
        ds = "20240101" ∨ (ds ≠ "19700101" ∧ ds ≠ "1970-01-01"))) :=
  ⟨⟨rfl, by decide, by decide⟩,
   C6_sentinel_behavior ["https://pub.com/p/a"] [] 0 stateB fetchB "20240101"
     rfl (by decide) (by decide)⟩
